import Mathlib

/-!
Shallow embedding of the cache-aware loop cost analysis
(include/llvm/Analysis/LoopCostAnalysis.h, lib/Analysis/LoopCostAnalysis.cpp):
perfect-nest detection, reference grouping, trip-count estimation and the
per-loop cost formula, together with theorems checking the specification's
claims against this embedding.

Modelling conventions: LLVM `Value` trees are abstracted to `ValT` (PHI
nodes, constants, globals, instructions with operand lists); pointer
identity of distinct blocks/loops/values is modelled by distinct numeric
ids; `ScalarEvolution` is an oracle (`SCEVModel`) supplying SCEVability and
constant differences; `double` arithmetic is modelled by `ℚ` (all values
arising in the analysed scenarios are exactly representable in `double`, so
this is exact); C++ undefined behaviour (out-of-bounds vector access, null
dereference) is modelled by `Option`, with `none` marking the fault.
-/

namespace LoopCostModel

mutual
/-- Abstraction of LLVM `Value` trees as consulted by `ASTMatch` and the
reference grouping: PHI nodes, non-instruction constants and globals, and
instructions carrying an operand list. -/
inductive ValT : Type where
  | phi (id : Nat)
  | const (n : Int)
  | glob (id : Nat)
  | inst (ops : ValTList)
deriving DecidableEq
inductive ValTList : Type where
  | nil
  | cons (hd : ValT) (tl : ValTList)
deriving DecidableEq
end

/-- An instruction of a basic block, abstracted to what the analysis
inspects: GEPs (`getelementptr`, split into leading operands and the last
operand), stores (side-effecting), branches (with conditionality), and
anything else. -/
inductive Inst : Type where
  | gep (lead : List ValT) (last : ValT)
  | store
  | other
  | br (uncond : Bool)
deriving DecidableEq

/-- A basic block: an id standing for pointer identity and its ordered
instruction list (the last instruction is the terminator). -/
structure BasicBlock : Type where
  bid : Nat
  insts : List Inst
deriving DecidableEq

/-- A reference (GEP) as handled by `CreateReferenceGroups`: all operands
but the last, plus the distinguished last operand. -/
structure GEPRef (V : Type) : Type where
  lead : List V
  last : V
deriving DecidableEq

/-- GEP->getNumOperands(). -/
def numOps {V : Type} (g : GEPRef V) : Nat := g.lead.length + 1

/-- The ScalarEvolution oracle: `isSCEVable` on a value's type, and
`minusConst x y = some d` when `getMinusSCEV(SCEV(x), SCEV(y))` is a
`SCEVConstant` with signed value `d`, `none` otherwise. -/
structure SCEVModel (V : Type) : Type where
  isSCEVable : V → Bool
  minusConst : V → V → Option Int

mutual
/-- A node of the loop forest: id (pointer identity), header and latch
blocks, the member blocks owned by this loop directly (excluding header,
latch and subloop blocks), the id of the single exiting block if any
(`getExitingBlock`), the canonical induction variable's PHI id if any
(`getCanonicalInductionVariable`), the ScalarEvolution answer for
`getSmallConstantTripCount(L, L->getExitingBlock())`, and the subloops. -/
inductive Loop : Type where
  | mk (lid : Nat) (header latch : BasicBlock) (ownBlocks : List BasicBlock)
       (exiting : Option Nat) (canonicalIV : Option Nat) (tripCount : Nat)
       (subloops : LoopList)
inductive LoopList : Type where
  | nil
  | cons (hd : Loop) (tl : LoopList)
end

def Loop.lid : Loop → Nat
  | Loop.mk l _ _ _ _ _ _ _ => l

def Loop.header : Loop → BasicBlock
  | Loop.mk _ h _ _ _ _ _ _ => h

def Loop.latch : Loop → BasicBlock
  | Loop.mk _ _ lt _ _ _ _ _ => lt

def Loop.ownBlocks : Loop → List BasicBlock
  | Loop.mk _ _ _ ob _ _ _ _ => ob

def Loop.exiting : Loop → Option Nat
  | Loop.mk _ _ _ _ ex _ _ _ => ex

def Loop.canonicalIV : Loop → Option Nat
  | Loop.mk _ _ _ _ _ iv _ _ => iv

def Loop.tripCount : Loop → Nat
  | Loop.mk _ _ _ _ _ _ tc _ => tc

def Loop.subloops : Loop → LoopList
  | Loop.mk _ _ _ _ _ _ _ subs => subs

def LoopList.length : LoopList → Nat
  | LoopList.nil => 0
  | LoopList.cons _ tl => 1 + LoopList.length tl

/-- The first subloop (`*L->begin()`), if any. -/
def firstSub : LoopList → Option Loop
  | LoopList.nil => none
  | LoopList.cons L _ => some L

mutual
/-- All member blocks of a loop, its subloops' blocks included
(`L->block_begin() .. L->block_end()`). -/
def allBlocks : Loop → List BasicBlock
  | Loop.mk _ h lt ob _ _ _ subs => h :: (ob ++ subBlocks subs ++ [lt])
def subBlocks : LoopList → List BasicBlock
  | LoopList.nil => []
  | LoopList.cons L rest => allBlocks L ++ subBlocks rest
end

def blockIds (L : Loop) : List Nat := (allBlocks L).map BasicBlock.bid

/-- Subloop->contains(bb), by block identity. -/
def loopContains (L : Loop) (bb : BasicBlock) : Bool := (blockIds L).contains bb.bid

/-- The terminator of a block is its last instruction. -/
def terminatorOf (bb : BasicBlock) : Option Inst := bb.insts.getLast?

/-- A block ignored as empty: a single instruction that is an
unconditional branch. -/
def isEmptyBlock (bb : BasicBlock) : Bool :=
  (bb.insts.length == 1) &&
    (match terminatorOf bb with
     | some (Inst.br true) => true
     | _ => false)

/-- IsRotatedLoop: the header is not the sole exiting block. -/
def IsRotatedLoop (L : Loop) : Bool := L.exiting != some L.header.bid

/-- hasSimpleHeaderLatch, exactly as in the source: a stub that returns
true unconditionally (the header/latch content check is a TODO there). -/
def hasSimpleHeaderLatch (_L : Loop) : Bool := true

/-- BlocksPerfectlyNestedUnder: all blocks other than header/latch are in
the single subloop, or are ignorable empty blocks. The `nil` arm models
the guarded assertion (callers ensure exactly one subloop). -/
def BlocksPerfectlyNestedUnder (L : Loop) : Bool :=
  match L.subloops with
  | LoopList.nil => false
  | LoopList.cons sub _ =>
    (allBlocks L).all fun bb =>
      (bb.bid == L.header.bid) || (bb.bid == L.latch.bid) ||
      loopContains sub bb || isEmptyBlock bb

/-- Insert L at the front of the last nest found
(`PerfectLoopNests[size-1].insert(begin, L)`); the empty case is
unreachable (guarded by `PerfectSubnest`). -/
def prependToLastNest (L : Loop) (acc : List (List Loop)) : List (List Loop) :=
  match acc.getLast? with
  | none => acc
  | some lastNest => acc.dropLast ++ [L :: lastNest]

mutual
/-- PopulatePerfectLoopNestsUnder: bottom-up construction of perfect loop
nests, returning the updated accumulator and whether L roots a perfect
chain. -/
def PopulatePerfectLoopNestsUnder : Loop → List (List Loop) → List (List Loop) × Bool
  | L@(Loop.mk _ _ _ _ _ _ _ subs), acc =>
    match subs with
    | LoopList.nil =>
      if !IsRotatedLoop L && hasSimpleHeaderLatch L then (acc ++ [[L]], true)
      else (acc, false)
    | LoopList.cons _ _ =>
      let r := populateList subs acc
      if r.2 && (LoopList.length subs == 1) && !IsRotatedLoop L &&
         hasSimpleHeaderLatch L && BlocksPerfectlyNestedUnder L then
        (prependToLastNest L r.1, true)
      else (r.1, false)
/-- Iteration over the subloops, conjoining the recursive results
(`PerfectSubnest &= ...`, no short-circuit). -/
def populateList : LoopList → List (List Loop) → List (List Loop) × Bool
  | LoopList.nil, acc => (acc, true)
  | LoopList.cons L rest, acc =>
    let r := PopulatePerfectLoopNestsUnder L acc
    let r2 := populateList rest r.1
    (r2.1, r.2 && r2.2)
end

/-- The outer-loop steps of IsPerfectNest, walking outward from the loop
just inside: each loop has exactly one subloop which is the previous loop,
is unrotated, has a simple header/latch, and is perfectly nested. -/
def chainOK : Loop → List Loop → Bool
  | _, [] => true
  | sub, L :: rest =>
    (LoopList.length L.subloops == 1) &&
    (match firstSub L.subloops with
     | some s => s.lid == sub.lid
     | none => false) &&
    !IsRotatedLoop L && hasSimpleHeaderLatch L && BlocksPerfectlyNestedUnder L &&
    chainOK L rest

/-- IsPerfectNest: top-down re-validation of a candidate nest, listed
outermost-first; starts at the innermost loop (`LN.rbegin()`). -/
def IsPerfectNest (LN : List Loop) : Bool :=
  match LN.reverse with
  | [] => false
  | inner :: rest =>
    (LoopList.length inner.subloops == 0) && !IsRotatedLoop inner &&
    hasSimpleHeaderLatch inner && chainOK inner rest

/-- The scan of getInnerSingleBB: skip header/latch and empty blocks,
return the unique remaining block, null on a second find. -/
def findSingleBB (hdr latch : Nat) : List BasicBlock → Option BasicBlock → Option BasicBlock
  | [], found => found
  | bb :: rest, found =>
    if bb.bid == hdr || bb.bid == latch then findSingleBB hdr latch rest found
    else if isEmptyBlock bb then findSingleBB hdr latch rest found
    else
      match found with
      | some _ => none
      | none => findSingleBB hdr latch rest (some bb)

/-- getInnerSingleBB: the single non-header/non-latch non-empty block of a
loop, if unique. -/
def getInnerSingleBB (L : Loop) : Option BasicBlock :=
  findSingleBB L.header.bid L.latch.bid (allBlocks L) none

/-- The GEP instructions of a block, in order. -/
def bbGEPs (bb : BasicBlock) : List (GEPRef ValT) :=
  bb.insts.filterMap fun i =>
    match i with
    | Inst.gep ld lst => some ⟨ld, lst⟩
    | _ => none

/-- The scan over the existing reference groups for one candidate GEP:
`some false` when the candidate falls into an existing group (not unique),
`some true` when no group matches (unique), `none` when the code
dereferences the null result of `dyn_cast<SCEVConstant>` (the difference
of the two last operands is not a compile-time constant). -/
def scanGroups {V : Type} [DecidableEq V] (S : SCEVModel V) (ls : Nat) (g : GEPRef V) :
    List (GEPRef V) → Option Bool
  | [] => some true
  | rg :: rest =>
    if numOps rg != numOps g then scanGroups S ls g rest
    else if rg.lead != g.lead then scanGroups S ls g rest
    else if S.isSCEVable rg.last == false then scanGroups S ls g rest
    else
      match S.minusConst g.last rg.last with
      | none => none
      | some d => if d < (ls : Int) then some false else scanGroups S ls g rest

/-- CreateReferenceGroups: a left-to-right pass over the GEPs of the
innermost body block, pushing a GEP as a new group representative unless
it lands in an existing group; the pre-existing member vector
`ReferenceGroups` is the first argument and is appended to, never
cleared. -/
def CreateReferenceGroups {V : Type} [DecidableEq V] (S : SCEVModel V) (ls : Nat) :
    List (GEPRef V) → List (GEPRef V) → Option (List (GEPRef V))
  | groups, [] => some groups
  | groups, g :: rest =>
    if S.isSCEVable g.last then
      match scanGroups S ls g groups with
      | none => none
      | some false => CreateReferenceGroups S ls groups rest
      | some true => CreateReferenceGroups S ls (groups ++ [g]) rest
    else CreateReferenceGroups S ls (groups ++ [g]) rest

/-- List indexing, as `std::vector` element access. -/
def nth {α : Type} : List α → Nat → Option α
  | [], _ => none
  | x :: _, 0 => some x
  | _ :: xs, n + 1 => nth xs n

/-- List indexing with a default. -/
def nthD {α : Type} (l : List α) (i : Nat) (d : α) : α := (nth l i).getD d

/-- In-place update of one element. -/
def setNth {α : Type} : List α → Nat → α → List α
  | [], _, _ => []
  | _ :: xs, 0, v => v :: xs
  | x :: xs, n + 1, v => x :: setNth xs n v

/-- One iteration of the trip-count normalization loop at position `i`:
a non-zero count is left alone; a zero count at the front copies the next
entry, at the back copies the previous entry, and in the middle takes the
unsigned average of both neighbours; a value still zero afterwards becomes
STATIC_TRIP_COUNT (1000). Reading a neighbour that does not exist (the
front rule on a one-entry vector dereferences `end()`) is the modelled
out-of-bounds fault, `none`. -/
def tcStep (a : List Nat) (i : Nat) : Option (List Nat) :=
  match nth a i with
  | none => none
  | some tc =>
    if tc ≠ 0 then some a
    else
      let v? : Option Nat :=
        if i = 0 then nth a 1
        else if i = a.length - 1 then nth a (i - 1)
        else
          match nth a (i - 1), nth a (i + 1) with
          | some p, some nx => some ((p + nx) % 4294967296 / 2)
          | _, _ => none
      match v? with
      | none => none
      | some v => some (setNth a i (if v = 0 then 1000 else v))

/-- The normalization loop, iterating `tcStep` over the listed positions
in order. -/
def tcLoop : List Nat → List Nat → Option (List Nat)
  | [], a => some a
  | i :: rest, a =>
    match tcStep a i with
    | none => none
    | some a2 => tcLoop rest a2

/-- The trip-count normalization pass of setTripCounts, visiting every
position of the whole `LoopTripCounts` vector from front to back. -/
def normalizeTripCounts (a : List Nat) : Option (List Nat) :=
  tcLoop (List.range a.length) a

/-- setTripCounts: append one `(loop, tripCount)` pair per loop of the
nest to the pre-existing member vector, then run the normalization loop
over the whole vector. -/
def setTripCounts (old : List (Nat × Nat)) (LN : List Loop) : Option (List (Nat × Nat)) :=
  let appended := old ++ LN.map (fun L => (L.lid, L.tripCount))
  match normalizeTripCounts (appended.map Prod.snd) with
  | none => none
  | some tcs => some (List.zip (appended.map Prod.fst) tcs)

mutual
/-- ASTMatch: the operand equals the PHI node, or is an instruction other
than a PHI node one of whose operands (recursively) matches;
non-instructions and other PHI nodes do not match. -/
def ASTMatch : ValT → Nat → Bool
  | ValT.phi i, p => i == p
  | ValT.inst ops, p => ASTMatchList ops p
  | ValT.const _, _ => false
  | ValT.glob _, _ => false
/-- ASTMatch over an instruction's operand list. -/
def ASTMatchList : ValTList → Nat → Bool
  | ValTList.nil, _ => false
  | ValTList.cons o rest, p => ASTMatch o p || ASTMatchList rest p
end

/-- The access-order enumeration of class LoopCost. -/
inductive AccessOrder : Type where
  | COLUMNMAJOR
  | ROWMAJOR
deriving DecidableEq

/-- The full operand list of a GEP. -/
def opsOf (g : GEPRef ValT) : List ValT := g.lead ++ [g.last]

/-- The per-reference penalty loop: scan operand positions 1..NumIndices;
a position matching the induction variable overwrites the penalty
(last-match-wins) with `ThisLoopPenalty/LineSize` at the distinguished
contiguous position (the last index for row-major, index 2 for
column-major) and `ThisLoopPenalty` elsewhere; with no match the penalty
stays 1 (invariant reference). -/
def refPenalty (ord : AccessOrder) (ls : Nat) (thisPen : ℚ) (g : GEPRef ValT) (p : Nat) : ℚ :=
  let ops := opsOf g
  let nidx := ops.length - 1
  (List.range' 1 nidx).foldl
    (fun pen ni =>
      if ASTMatch (nthD ops ni (ValT.const 0)) p then
        if (ord == AccessOrder.ROWMAJOR && ni == nidx) ||
           (ord == AccessOrder.COLUMNMAJOR && ni == 2) then
          thisPen / (ls : ℚ)
        else thisPen
      else pen)
    1

/-- The penalty scan over `LoopTripCounts`: `ThisLoopPenalty` is
overwritten by the entry for this loop (initially 1), while every other
entry multiplies into `OtherLoopPenalties` (initially 1). -/
def penaltiesPair (tcs : List (Nat × Nat)) (lid : Nat) : ℚ × ℚ :=
  tcs.foldl
    (fun pr ltc =>
      if ltc.1 == lid then (((ltc.2 : Nat) : ℚ), pr.2)
      else (pr.1, pr.2 * ((ltc.2 : Nat) : ℚ)))
    (1, 1)

/-- The cost assigned to one loop of the nest: the sum over reference
groups of the representative's penalty times `OtherLoopPenalties`. -/
def nestLoopCost (ord : AccessOrder) (ls : Nat) (tcs : List (Nat × Nat))
    (groups : List (GEPRef ValT)) (lid : Nat) (p : Nat) : ℚ :=
  let pr := penaltiesPair tcs lid
  groups.foldl (fun acc g => acc + refPenalty ord ls pr.1 g p * pr.2) 0

/-- Map update, as `LoopCosts[L] = v`. -/
def setCost : List (Nat × ℚ) → Nat → ℚ → List (Nat × ℚ)
  | [], lid, v => [(lid, v)]
  | (k, w) :: rest, lid, v =>
    if k = lid then (lid, v) :: rest else (k, w) :: setCost rest lid v

/-- Map lookup, as `LoopCosts.find(L)`. -/
def lookupCost : List (Nat × ℚ) → Nat → Option ℚ
  | [], _ => none
  | (k, w) :: rest, lid => if k = lid then some w else lookupCost rest lid

/-- Initialize the cost of all loops of the nest to -1. -/
def initCosts (cs : List (Nat × ℚ)) (LN : List Loop) : List (Nat × ℚ) :=
  LN.foldl (fun m L => setCost m L.lid (-1)) cs

/-- The main loop of calculateLoopCosts: each loop of the nest in turn; a
loop with no canonical induction variable is skipped (its cost entry stays
as initialized), otherwise its cost is computed and stored. -/
def costLoop (ord : AccessOrder) (ls : Nat) (tcs : List (Nat × Nat))
    (groups : List (GEPRef ValT)) : List Loop → List (Nat × ℚ) → List (Nat × ℚ)
  | [], cs => cs
  | L :: rest, cs =>
    match L.canonicalIV with
    | none => costLoop ord ls tcs groups rest cs
    | some p => costLoop ord ls tcs groups rest
        (setCost cs L.lid (nestLoopCost ord ls tcs groups L.lid p))

/-- The mutable state of a LoopCost object: the trip-count vector, the
reference-group vector and the cost map. The vectors are member fields,
never cleared between calls. -/
structure LCState : Type where
  LoopTripCounts : List (Nat × Nat)
  ReferenceGroups : List (GEPRef ValT)
  LoopCosts : List (Nat × ℚ)

/-- calculateLoopCosts: initialize all costs of the nest to -1; bail out
(costs unknown) when the nest fails IsPerfectNest or the innermost loop
has no single body block; otherwise build reference groups and trip counts
(appending to the member vectors) and run the cost loop. `none` models a
crash (empty nest dereferencing `rbegin()`, the grouping null dereference,
or the trip-count out-of-bounds read). -/
def calculateLoopCosts (S : SCEVModel ValT) (ls : Nat) (ord : AccessOrder)
    (st : LCState) (LN : List Loop) : Option LCState :=
  let cs1 := initCosts st.LoopCosts LN
  match LN.getLast? with
  | none => none
  | some inner =>
    if IsPerfectNest LN = false then some { st with LoopCosts := cs1 }
    else
      match getInnerSingleBB inner with
      | none => some { st with LoopCosts := cs1 }
      | some bb =>
        match CreateReferenceGroups S ls st.ReferenceGroups (bbGEPs bb) with
        | none => none
        | some groups =>
          match setTripCounts st.LoopTripCounts LN with
          | none => none
          | some tcs =>
            some { LoopTripCounts := tcs, ReferenceGroups := groups,
                   LoopCosts := costLoop ord ls tcs groups LN cs1 }

/-- getLoopCostOf: the stored cost, or -1 when the loop is not in the
map. -/
def getLoopCostOf (st : LCState) (lid : Nat) : ℚ :=
  (lookupCost st.LoopCosts lid).getD (-1)

/-- The nest-detection phase of runOnFunction, over the top-level loops. -/
def detectNests (tops : List Loop) : List (List Loop) :=
  tops.foldl (fun acc L => (PopulatePerfectLoopNestsUnder L acc).1) []

/-- Sequential processing of the detected nests through one shared
LoopCost object. -/
def runNests (S : SCEVModel ValT) (ls : Nat) (ord : AccessOrder) :
    LCState → List (List Loop) → Option LCState
  | st, [] => some st
  | st, LN :: rest =>
    match calculateLoopCosts S ls ord st LN with
    | none => none
    | some st2 => runNests S ls ord st2 rest

/-- runOnFunction: a fresh LoopCost object (line size 4 from
initCacheData, ROWMAJOR from the constructor), nest detection, then
calculateLoopCosts on each detected nest in sequence. -/
def runOnFunction (S : SCEVModel ValT) (tops : List Loop) : Option LCState :=
  runNests S 4 AccessOrder.ROWMAJOR ⟨[], [], []⟩ (detectNests tops)

/-- The cost of one loop after a whole run, `none` when the run crashed. -/
def costOfRun (S : SCEVModel ValT) (tops : List Loop) (lid : Nat) : Option ℚ :=
  (runOnFunction S tops).map (fun st => getLoopCostOf st lid)

/-! Concrete instance: the reference matrix-multiply test
(test/Analysis/CostModel/X86/matmul-perfect-loopCost.ll). Block ids: 0
for.cond, 1 for.body, 2 for.cond1, 3 for.body3, 4 for.cond4, 5 for.body6,
6 for.inc, 7 for.end, 8 for.inc21, 9 for.end23, 10 for.inc24. PHI ids:
100 indvars.iv6 (i), 101 indvars.iv3 (j), 102 indvars.iv (k). Global ids:
0 @c, 1 @a, 2 @b. Loop ids: 1 for.cond, 2 for.cond1, 3 for.cond4. -/

/-- c[i][j] (`%arrayidx8` and `%arrayidx20`). -/
def gepC : Inst := Inst.gep [ValT.glob 0, ValT.const 0, ValT.phi 100] (ValT.phi 101)

/-- a[i][k] (`%arrayidx12`). -/
def gepA : Inst := Inst.gep [ValT.glob 1, ValT.const 0, ValT.phi 100] (ValT.phi 102)

/-- b[k][j] (`%arrayidx16`). -/
def gepB : Inst := Inst.gep [ValT.glob 2, ValT.const 0, ValT.phi 102] (ValT.phi 101)

/-- for.body6: four GEPs, three loads, mul, add, store, branch. -/
def bbBody6 : BasicBlock :=
  ⟨5, [gepC, Inst.other, gepA, Inst.other, gepB, Inst.other, Inst.other,
       Inst.other, gepC, Inst.store, Inst.br true]⟩

/-- for.cond4, the innermost (k) loop. -/
def loopCond4 : Loop :=
  Loop.mk 3 ⟨4, [Inst.other, Inst.other, Inst.br false]⟩
    ⟨6, [Inst.other, Inst.br true]⟩ [bbBody6] (some 4) (some 102) 5001 LoopList.nil

/-- for.cond1, the middle (j) loop. -/
def loopCond1 : Loop :=
  Loop.mk 2 ⟨2, [Inst.other, Inst.other, Inst.br false]⟩
    ⟨8, [Inst.other, Inst.br true]⟩ [⟨3, [Inst.br true]⟩, ⟨7, [Inst.br true]⟩]
    (some 2) (some 101) 5001 (LoopList.cons loopCond4 LoopList.nil)

/-- for.cond, the outermost (i) loop. -/
def loopCond : Loop :=
  Loop.mk 1 ⟨0, [Inst.other, Inst.other, Inst.br false]⟩
    ⟨10, [Inst.other, Inst.br true]⟩ [⟨1, [Inst.br true]⟩, ⟨9, [Inst.br true]⟩]
    (some 0) (some 100) 5001 (LoopList.cons loopCond1 LoopList.nil)

/-- The ScalarEvolution oracle for the matmul function: every last index
is an affine SCEVable expression, and the difference of two last operands
is the constant 0 exactly when they are the same value (distinct induction
variables differ non-constantly). -/
def matmulSCEV : SCEVModel ValT :=
  ⟨fun _ => true, fun x y => if x = y then some 0 else none⟩

/-! Further concrete instances used to settle individual claims. -/

/-- An oracle whose symbolic difference is defined exactly on constant
last operands: `minusConst (const m) (const n) = some (m - n)`. -/
def constSCEV : SCEVModel ValT :=
  ⟨fun _ => true,
   fun x y =>
     match x, y with
     | ValT.const m, ValT.const n => some (m - n)
     | _, _ => none⟩

/-- A childless, unrotated loop whose header holds a store (side-effecting
work), whose latch holds an update, and with one real body block. -/
def sideEffectLoop : Loop :=
  Loop.mk 7 ⟨70, [Inst.store, Inst.other, Inst.br false]⟩
    ⟨71, [Inst.other, Inst.br true]⟩ [⟨72, [Inst.other, Inst.br true]⟩]
    (some 70) (some 200) 5 LoopList.nil

/-- A childless, unrotated loop with a clean header and latch. -/
def plainLoop : Loop :=
  Loop.mk 9 ⟨75, [Inst.other, Inst.br false]⟩
    ⟨76, [Inst.other, Inst.br true]⟩ [⟨77, [Inst.other, Inst.br true]⟩]
    (some 75) (some 210) 6 LoopList.nil

/-- A GEP on the induction variable of the first single-loop nest. -/
def gN1 : Inst := Inst.gep [ValT.glob 11] (ValT.phi 201)

/-- A GEP on the induction variable of the second single-loop nest. -/
def gN2 : Inst := Inst.gep [ValT.glob 12] (ValT.phi 202)

/-- First single-loop perfect nest: trip count 10, one reference. -/
def nest1Loop : Loop :=
  Loop.mk 1 ⟨30, [Inst.other, Inst.br false]⟩ ⟨32, [Inst.other, Inst.br true]⟩
    [⟨31, [gN1, Inst.other, Inst.br true]⟩] (some 30) (some 201) 10 LoopList.nil

/-- Second single-loop perfect nest: trip count 20, one reference. -/
def nest2Loop : Loop :=
  Loop.mk 2 ⟨40, [Inst.other, Inst.br false]⟩ ⟨42, [Inst.other, Inst.br true]⟩
    [⟨41, [gN2, Inst.other, Inst.br true]⟩] (some 40) (some 202) 20 LoopList.nil

/-- A rotated childless loop (exit test not in the header): the detector
rejects it, so it belongs to no perfect nest. -/
def rotatedLoop : Loop :=
  Loop.mk 8 ⟨80, [Inst.other, Inst.br true]⟩ ⟨81, [Inst.other, Inst.br false]⟩
    [⟨82, [Inst.other, Inst.br true]⟩] (some 81) (some 220) 9 LoopList.nil

/-- An unrotated childless loop with two real body blocks: its nest passes
the perfection checks but getInnerSingleBB finds no single body block. -/
def twoBlockLoop : Loop :=
  Loop.mk 11 ⟨85, [Inst.other, Inst.br false]⟩ ⟨88, [Inst.other, Inst.br true]⟩
    [⟨86, [Inst.other, Inst.br true]⟩, ⟨87, [Inst.store, Inst.br true]⟩]
    (some 85) (some 230) 9 LoopList.nil

/-- A perfect single-loop nest whose loop has no canonical induction
variable. -/
def noIVLoop : Loop :=
  Loop.mk 12 ⟨90, [Inst.other, Inst.br false]⟩ ⟨92, [Inst.other, Inst.br true]⟩
    [⟨91, [Inst.gep [ValT.glob 13] (ValT.phi 301), Inst.br true]⟩]
    (some 90) none 7 LoopList.nil

/-- A perfect single-loop nest whose loop has a canonical induction
variable. -/
def withIVLoop : Loop :=
  Loop.mk 13 ⟨95, [Inst.other, Inst.br false]⟩ ⟨97, [Inst.other, Inst.br true]⟩
    [⟨96, [Inst.gep [ValT.glob 14] (ValT.phi 302), Inst.br true]⟩]
    (some 95) (some 302) 8 LoopList.nil

/-- A perfect single-loop nest whose trip count ScalarEvolution cannot
determine (recorded 0). -/
def zeroTripLoop : Loop :=
  Loop.mk 14 ⟨55, [Inst.other, Inst.br false]⟩ ⟨57, [Inst.other, Inst.br true]⟩
    [⟨56, [Inst.other, Inst.br true]⟩] (some 55) (some 303) 0 LoopList.nil

/-! General lemmas about the cost map and the phases of
calculateLoopCosts, shared by the claim theorems. -/

theorem lookup_setCost_self (cs : List (Nat × ℚ)) (lid : Nat) (v : ℚ) :
    lookupCost (setCost cs lid v) lid = some v := by
  induction cs with
  | nil => simp [setCost, lookupCost]
  | cons hd tl ih =>
    obtain ⟨k, w⟩ := hd
    by_cases hk : k = lid
    · subst hk
      simp [setCost, lookupCost]
    · simp [setCost, lookupCost, hk, ih]

theorem lookup_setCost_ne (cs : List (Nat × ℚ)) (lid k : Nat) (v : ℚ) (h : k ≠ lid) :
    lookupCost (setCost cs lid v) k = lookupCost cs k := by
  induction cs with
  | nil =>
    simp only [setCost, lookupCost]
    rw [if_neg (fun hc : lid = k => h hc.symm)]
  | cons hd tl ih =>
    obtain ⟨k2, w⟩ := hd
    simp only [setCost]
    by_cases hk : k2 = lid
    · rw [if_pos hk]
      simp only [lookupCost]
      rw [if_neg (fun hc : lid = k => h hc.symm), if_neg (fun hc : k2 = k => h (hk ▸ hc).symm)]
    · rw [if_neg hk]
      simp only [lookupCost]
      by_cases hk2 : k2 = k
      · rw [if_pos hk2, if_pos hk2]
      · rw [if_neg hk2, if_neg hk2, ih]

theorem initCosts_cons (cs : List (Nat × ℚ)) (L : Loop) (rest : List Loop) :
    initCosts cs (L :: rest) = initCosts (setCost cs L.lid (-1)) rest := rfl

theorem initCosts_lookup_not_mem (LN : List Loop) (cs : List (Nat × ℚ)) (lid : Nat)
    (h : lid ∉ LN.map Loop.lid) :
    lookupCost (initCosts cs LN) lid = lookupCost cs lid := by
  induction LN generalizing cs with
  | nil => rfl
  | cons L rest ih =>
    simp only [List.map_cons, List.mem_cons] at h
    push_neg at h
    rw [initCosts_cons, ih _ h.2, lookup_setCost_ne _ _ _ _ h.1]

theorem initCosts_lookup_mem (LN : List Loop) (cs : List (Nat × ℚ)) (lid : Nat)
    (h : lid ∈ LN.map Loop.lid) :
    lookupCost (initCosts cs LN) lid = some (-1) := by
  induction LN generalizing cs with
  | nil => simp at h
  | cons L rest ih =>
    rw [initCosts_cons]
    by_cases hr : lid ∈ rest.map Loop.lid
    · exact ih _ hr
    · simp only [List.map_cons, List.mem_cons] at h
      rcases h with h | h

      · subst h
        rw [initCosts_lookup_not_mem _ _ _ hr, lookup_setCost_self]
      · exact absurd h hr

theorem costLoop_lookup_not_mem (ord : AccessOrder) (ls : Nat) (tcs : List (Nat × Nat))
    (groups : List (GEPRef ValT)) (LN : List Loop) (cs : List (Nat × ℚ)) (lid : Nat)
    (h : lid ∉ LN.map Loop.lid) :
    lookupCost (costLoop ord ls tcs groups LN cs) lid = lookupCost cs lid := by
  induction LN generalizing cs with
  | nil => rfl
  | cons L rest ih =>
    simp only [List.map_cons, List.mem_cons] at h
    push_neg at h
    cases hiv : L.canonicalIV with
    | none => rw [costLoop, hiv] ; exact ih _ h.2
    | some p =>
      rw [costLoop, hiv]
      rw [ih _ h.2, lookup_setCost_ne _ _ _ _ h.1]

theorem costLoop_lookup_skip (ord : AccessOrder) (ls : Nat) (tcs : List (Nat × Nat))
    (groups : List (GEPRef ValT)) (LN : List Loop) (cs : List (Nat × ℚ)) (L : Loop)
    (hnd : (LN.map Loop.lid).Nodup) (hmem : L ∈ LN) (hiv : L.canonicalIV = none) :
    lookupCost (costLoop ord ls tcs groups LN cs) L.lid = lookupCost cs L.lid := by
  induction LN generalizing cs with
  | nil => simp at hmem
  | cons hd rest ih =>
    simp only [List.map_cons, List.nodup_cons] at hnd
    rcases List.mem_cons.mp hmem with h | h
    · subst h
      rw [costLoop, hiv]
      exact costLoop_lookup_not_mem _ _ _ _ _ _ _ hnd.1
    · have hne : hd.lid ≠ L.lid := by
        intro hc
        exact hnd.1 (hc ▸ List.mem_map_of_mem Loop.lid h)
      cases hivh : hd.canonicalIV with
      | none => rw [costLoop, hivh] ; exact ih _ hnd.2 h
      | some q =>
        rw [costLoop, hivh]
        rw [ih _ hnd.2 h]
        exact lookup_setCost_ne _ _ _ _ (fun hc => hne hc.symm)

theorem costLoop_lookup_compute (ord : AccessOrder) (ls : Nat) (tcs : List (Nat × Nat))
    (groups : List (GEPRef ValT)) (LN : List Loop) (cs : List (Nat × ℚ)) (L : Loop) (p : Nat)
    (hnd : (LN.map Loop.lid).Nodup) (hmem : L ∈ LN) (hiv : L.canonicalIV = some p) :
    lookupCost (costLoop ord ls tcs groups LN cs) L.lid =
      some (nestLoopCost ord ls tcs groups L.lid p) := by
  induction LN generalizing cs with
  | nil => simp at hmem
  | cons hd rest ih =>
    simp only [List.map_cons, List.nodup_cons] at hnd
    rcases List.mem_cons.mp hmem with h | h
    · subst h
      rw [costLoop, hiv]
      rw [costLoop_lookup_not_mem _ _ _ _ _ _ _ hnd.1, lookup_setCost_self]
    · cases hivh : hd.canonicalIV with
      | none => rw [costLoop, hivh] ; exact ih _ hnd.2 h
      | some q =>
        rw [costLoop, hivh]
        exact ih _ hnd.2 h

theorem calc_some_getLast (S : SCEVModel ValT) (ls : Nat) (ord : AccessOrder) (st : LCState)
    (LN : List Loop) (st2 : LCState)
    (hcalc : calculateLoopCosts S ls ord st LN = some st2) :
    ∃ inner, LN.getLast? = some inner := by
  cases hl : LN.getLast? with
  | none => simp [calculateLoopCosts, hl] at hcalc
  | some inner => exact ⟨inner, rfl⟩

theorem calc_eq_of_imperfect (S : SCEVModel ValT) (ls : Nat) (ord : AccessOrder) (st : LCState)
    (LN : List Loop) (inner : Loop) (hl : LN.getLast? = some inner)
    (hperf : IsPerfectNest LN = false) :
    calculateLoopCosts S ls ord st LN =
      some { st with LoopCosts := initCosts st.LoopCosts LN } := by
  simp [calculateLoopCosts, hl, hperf]

theorem calc_eq_of_nobb (S : SCEVModel ValT) (ls : Nat) (ord : AccessOrder) (st : LCState)
    (LN : List Loop) (inner : Loop) (hl : LN.getLast? = some inner)
    (hbb : getInnerSingleBB inner = none) :
    calculateLoopCosts S ls ord st LN =
      some { st with LoopCosts := initCosts st.LoopCosts LN } := by
  cases hperf : IsPerfectNest LN with
  | false => simp [calculateLoopCosts, hl, hperf]
  | true => simp [calculateLoopCosts, hl, hperf, hbb]

theorem calc_eq_of_full (S : SCEVModel ValT) (ls : Nat) (ord : AccessOrder) (st : LCState)
    (LN : List Loop) (inner : Loop) (bb : BasicBlock) (groups : List (GEPRef ValT))
    (tcs : List (Nat × Nat)) (hl : LN.getLast? = some inner)
    (hperf : IsPerfectNest LN = true) (hbb : getInnerSingleBB inner = some bb)
    (hg : CreateReferenceGroups S ls st.ReferenceGroups (bbGEPs bb) = some groups)
    (htc : setTripCounts st.LoopTripCounts LN = some tcs) :
    calculateLoopCosts S ls ord st LN =
      some ⟨tcs, groups, costLoop ord ls tcs groups LN (initCosts st.LoopCosts LN)⟩ := by
  simp [calculateLoopCosts, hl, hperf, hbb, hg, htc]

theorem calc_lookup_not_mem (S : SCEVModel ValT) (ls : Nat) (ord : AccessOrder) (st : LCState)
    (LN : List Loop) (st2 : LCState) (lid : Nat)
    (hcalc : calculateLoopCosts S ls ord st LN = some st2)
    (h : lid ∉ LN.map Loop.lid) :
    lookupCost st2.LoopCosts lid = lookupCost st.LoopCosts lid := by
  obtain ⟨inner, hl⟩ := calc_some_getLast S ls ord st LN st2 hcalc
  cases hperf : IsPerfectNest LN with
  | false =>
    rw [calc_eq_of_imperfect S ls ord st LN inner hl hperf] at hcalc
    obtain rfl := Option.some.inj hcalc
    exact initCosts_lookup_not_mem LN st.LoopCosts lid h
  | true =>
    cases hbb : getInnerSingleBB inner with
    | none =>
      rw [calc_eq_of_nobb S ls ord st LN inner hl hbb] at hcalc
      obtain rfl := Option.some.inj hcalc
      exact initCosts_lookup_not_mem LN st.LoopCosts lid h
    | some bb =>
      cases hg : CreateReferenceGroups S ls st.ReferenceGroups (bbGEPs bb) with
      | none => simp [calculateLoopCosts, hl, hperf, hbb, hg] at hcalc
      | some groups =>
        cases htc : setTripCounts st.LoopTripCounts LN with
        | none => simp [calculateLoopCosts, hl, hperf, hbb, hg, htc] at hcalc
        | some tcs =>
          rw [calc_eq_of_full S ls ord st LN inner bb groups tcs hl hperf hbb hg htc] at hcalc
          obtain rfl := Option.some.inj hcalc
          rw [costLoop_lookup_not_mem _ _ _ _ _ _ _ h]
          exact initCosts_lookup_not_mem LN st.LoopCosts lid h

theorem runNests_lookup_not_mem (S : SCEVModel ValT) (ls : Nat) (ord : AccessOrder)
    (nests : List (List Loop)) (st st2 : LCState) (lid : Nat)
    (hrun : runNests S ls ord st nests = some st2)
    (h : ∀ LN ∈ nests, lid ∉ LN.map Loop.lid) :
    lookupCost st2.LoopCosts lid = lookupCost st.LoopCosts lid := by
  induction nests generalizing st with
  | nil =>
    simp only [runNests, Option.some.injEq] at hrun
    rw [hrun]
  | cons LN rest ih =>
    rw [runNests] at hrun
    cases hc : calculateLoopCosts S ls ord st LN with
    | none => rw [hc] at hrun ; cases hrun
    | some stm =>
      rw [hc] at hrun
      rw [ih stm hrun (fun N hN => h N (List.mem_cons_of_mem _ hN))]
      exact calc_lookup_not_mem S ls ord st LN stm lid hc (h LN (List.mem_cons_self LN rest))

/-! Theorems settling the claims. -/

/-- C2 (counterexample): in a fully unrecoverable 3-loop nest the
trip-count post-processing does NOT assign 1000 to every loop: because the
normalization is sequential and in place, `[0, 0, 0]` becomes
`[1000, 500, 500]`, not `[1000, 1000, 1000]`. -/
theorem C2_allzero_counterexample :
    normalizeTripCounts [0, 0, 0] = some [1000, 500, 500] ∧
    ¬ normalizeTripCounts [0, 0, 0] = some [1000, 1000, 1000] :=
  ⟨rfl, by decide⟩

/-- C2 (amended): for a fully unrecoverable 3-loop nest the counts become
`[1000, 500, 500]`: the first loop gets the fallback constant 1000, and
each later zero-count loop averages its predecessor's already-updated
value with its successor's recorded value. In general a zero interior
count becomes the unsigned average of the updated predecessor and the
recorded successor, with 1000 substituted when the average is still 0. -/
theorem C2_tripcount_fallback :
    (normalizeTripCounts [0, 0, 0] = some [1000, 500, 500]) ∧
    (∀ a b : Nat, a ≠ 0 → b ≠ 0 →
      normalizeTripCounts [a, 0, b] =
        some [a,
          if (a + b) % 4294967296 / 2 = 0 then 1000 else (a + b) % 4294967296 / 2,
          b]) := by
  refine ⟨rfl, ?_⟩
  intro a b ha hb
  rw [show normalizeTripCounts [a, 0, b] = tcLoop [0, 1, 2] [a, 0, b] from rfl]
  simp [tcLoop, tcStep, nth, setNth, ha, hb]

/-- C2 (witness): a concrete interior fallback, `[7, 0, 9]` becomes
`[7, 8, 9]`. -/
theorem C2_tripcount_fallback_witness : normalizeTripCounts [7, 0, 9] = some [7, 8, 9] := by
  have h := C2_tripcount_fallback.2 7 9 (by decide) (by decide)
  simpa using h

/-- C9: for a nest of a single loop whose trip count is unrecoverable
(recorded 0), the front normalization rule reads the entry one past the
end of the one-element vector: the modelled out-of-bounds fault. -/
theorem C9_singleton_oob :
    setTripCounts [] [zeroTripLoop] = none ∧ normalizeTripCounts [0] = none :=
  ⟨rfl, rfl⟩

/-- C3: a candidate reference with the same operand count, identical
leading operands and SCEVable last index as an existing group
representative joins that group exactly when the constant difference of
the last indices is strictly below the line size, and starts a new group
when the difference is the line size or more. -/
theorem C3_grouping_rule {V : Type} [DecidableEq V] (S : SCEVModel V) (ls : Nat)
    (r c : GEPRef V) (d : Int) (hnum : numOps c = numOps r) (hlead : c.lead = r.lead)
    (hsr : S.isSCEVable r.last = true) (hsc : S.isSCEVable c.last = true)
    (hdiff : S.minusConst c.last r.last = some d) :
    (d < (ls : Int) → CreateReferenceGroups S ls [] [r, c] = some [r]) ∧
    ((ls : Int) ≤ d → CreateReferenceGroups S ls [] [r, c] = some [r, c]) := by
  constructor
  · intro h
    simp [CreateReferenceGroups, scanGroups, hsr, hsc, hnum, hlead, hdiff, h]
  · intro h
    simp [CreateReferenceGroups, scanGroups, hsr, hsc, hnum, hlead, hdiff, not_lt.mpr h]

/-- C3 (witness): with line size 4, last indices 0 and 2 share a group;
last indices 0 and 4 do not. -/
theorem C3_grouping_rule_witness :
    CreateReferenceGroups constSCEV 4 []
        [⟨[ValT.glob 3], ValT.const 0⟩, ⟨[ValT.glob 3], ValT.const 2⟩] =
      some [⟨[ValT.glob 3], ValT.const 0⟩] ∧
    CreateReferenceGroups constSCEV 4 []
        [⟨[ValT.glob 3], ValT.const 0⟩, ⟨[ValT.glob 3], ValT.const 4⟩] =
      some [⟨[ValT.glob 3], ValT.const 0⟩, ⟨[ValT.glob 3], ValT.const 4⟩] :=
  ⟨(C3_grouping_rule constSCEV 4 ⟨[ValT.glob 3], ValT.const 0⟩ ⟨[ValT.glob 3], ValT.const 2⟩ 2
      rfl rfl rfl rfl (by decide)).1 (by decide),
   (C3_grouping_rule constSCEV 4 ⟨[ValT.glob 3], ValT.const 0⟩ ⟨[ValT.glob 3], ValT.const 4⟩ 4
      rfl rfl rfl rfl (by decide)).2 (by decide)⟩

/-- C10: the cache-line comparison is on the signed constant difference,
so a candidate whose last index lies any constant amount BELOW the
representative's joins the existing group. -/
theorem C10_negative_diff_joins {V : Type} [DecidableEq V] (S : SCEVModel V) (ls : Nat)
    (r c : GEPRef V) (d : Int) (hlead : c.lead = r.lead)
    (hsr : S.isSCEVable r.last = true) (hsc : S.isSCEVable c.last = true)
    (hdiff : S.minusConst c.last r.last = some d) (hneg : d < 0) :
    CreateReferenceGroups S ls [] [r, c] = some [r] := by
  have h : d < (ls : Int) := lt_of_lt_of_le hneg (Int.natCast_nonneg ls)
  have hnum : numOps c = numOps r := by simp [numOps, hlead]
  simp [CreateReferenceGroups, scanGroups, hsr, hsc, hnum, hlead, hdiff, h]

/-- C10 (witness): last indices i and i-100 with line size 4: the
difference -100 is signed-below 4, so the candidate joins the group. -/
theorem C10_negative_diff_joins_witness :
    CreateReferenceGroups constSCEV 4 []
        [⟨[ValT.glob 5], ValT.const 0⟩, ⟨[ValT.glob 5], ValT.const (-100)⟩] =
      some [⟨[ValT.glob 5], ValT.const 0⟩] :=
  C10_negative_diff_joins constSCEV 4 ⟨[ValT.glob 5], ValT.const 0⟩
    ⟨[ValT.glob 5], ValT.const (-100)⟩ (-100) rfl rfl rfl (by decide) (by decide)

/-- C4: two references with identical leading operands and SCEVable last
indices whose symbolic difference is NOT a compile-time constant (two
distinct induction variables): the grouping dereferences the null result
of `dyn_cast<SCEVConstant>`, the modelled crash, instead of treating the
candidate as not matching. -/
theorem C4_nonconstant_diff_crash :
    CreateReferenceGroups matmulSCEV 4 []
        [⟨[ValT.glob 0, ValT.const 0], ValT.phi 100⟩,
         ⟨[ValT.glob 0, ValT.const 0], ValT.phi 101⟩] = none := rfl

/-- C5 (counterexample): a childless, unrotated loop whose header holds a
store (side-effecting work) IS emitted as a base perfect nest of size 1,
because hasSimpleHeaderLatch is a stub returning true. -/
theorem C5_sideeffect_header_emitted :
    IsRotatedLoop sideEffectLoop = false ∧
    Inst.store ∈ sideEffectLoop.header.insts ∧
    PopulatePerfectLoopNestsUnder sideEffectLoop [] = ([[sideEffectLoop]], true) := by
  refine ⟨rfl, ?_, rfl⟩
  show Inst.store ∈ [Inst.store, Inst.other, Inst.br false]
  exact List.mem_cons_self _ _

/-- C5 (amended): a loop with no children is emitted as a base perfect
nest of size 1 iff it is not rotated; the header/latch content is never
examined (hasSimpleHeaderLatch is a stub returning true). -/
theorem C5_base_nest_iff_unrotated (L : Loop) (acc : List (List Loop))
    (hsub : L.subloops = LoopList.nil) :
    PopulatePerfectLoopNestsUnder L acc = (acc ++ [[L]], true) ↔
      IsRotatedLoop L = false := by
  cases L with
  | mk l hd lt ob ex iv tc subs =>
    simp only [Loop.subloops] at hsub
    subst hsub
    cases hrot : IsRotatedLoop (Loop.mk l hd lt ob ex iv tc LoopList.nil) with
    | true => simp [PopulatePerfectLoopNestsUnder, hrot, hasSimpleHeaderLatch]
    | false => simp [PopulatePerfectLoopNestsUnder, hrot, hasSimpleHeaderLatch]

/-- C5 (witness): a concrete childless unrotated loop is emitted. -/
theorem C5_base_nest_iff_unrotated_witness :
    PopulatePerfectLoopNestsUnder plainLoop [] = ([[plainLoop]], true) :=
  (C5_base_nest_iff_unrotated plainLoop [] rfl).mpr rfl

/-- C7: the cost of a loop not part of any perfect nest is the unknown
sentinel -1: when its nest fails the IsPerfectNest re-check, when the
innermost loop has no single non-control body block, and when the loop was
never placed in any detected nest at all. -/
theorem C7_unknown_cost :
    (∀ (S : SCEVModel ValT) (ls : Nat) (ord : AccessOrder) (st : LCState)
        (LN : List Loop) (st2 : LCState) (L : Loop),
        calculateLoopCosts S ls ord st LN = some st2 → L ∈ LN →
        IsPerfectNest LN = false → getLoopCostOf st2 L.lid = -1) ∧
    (∀ (S : SCEVModel ValT) (ls : Nat) (ord : AccessOrder) (st : LCState)
        (LN : List Loop) (st2 : LCState) (L : Loop) (inner : Loop),
        calculateLoopCosts S ls ord st LN = some st2 → L ∈ LN →
        LN.getLast? = some inner → getInnerSingleBB inner = none →
        getLoopCostOf st2 L.lid = -1) ∧
    (∀ (S : SCEVModel ValT) (tops : List Loop) (st2 : LCState) (lid : Nat),
        runOnFunction S tops = some st2 →
        (∀ LN ∈ detectNests tops, lid ∉ LN.map Loop.lid) →
        getLoopCostOf st2 lid = -1) := by
  refine ⟨?_, ?_, ?_⟩
  · intro S ls ord st LN st2 L hcalc hmem hperf
    obtain ⟨inner, hl⟩ := calc_some_getLast S ls ord st LN st2 hcalc
    rw [calc_eq_of_imperfect S ls ord st LN inner hl hperf] at hcalc
    obtain rfl := Option.some.inj hcalc
    show (lookupCost (initCosts st.LoopCosts LN) L.lid).getD (-1) = -1
    rw [initCosts_lookup_mem LN st.LoopCosts L.lid (List.mem_map_of_mem Loop.lid hmem)]
    rfl
  · intro S ls ord st LN st2 L inner hcalc hmem hl hbb
    rw [calc_eq_of_nobb S ls ord st LN inner hl hbb] at hcalc
    obtain rfl := Option.some.inj hcalc
    show (lookupCost (initCosts st.LoopCosts LN) L.lid).getD (-1) = -1
    rw [initCosts_lookup_mem LN st.LoopCosts L.lid (List.mem_map_of_mem Loop.lid hmem)]
    rfl
  · intro S tops st2 lid hrun h
    show (lookupCost st2.LoopCosts lid).getD (-1) = -1
    rw [runNests_lookup_not_mem S 4 AccessOrder.ROWMAJOR (detectNests tops) ⟨[], [], []⟩
      st2 lid hrun h]
    rfl

/-- C7 (witness): a rotated single loop (nest fails the re-check), an
unrotated loop with two body blocks (no single innermost block), and a
loop the detector never placed in any nest, each query to -1. -/
theorem C7_unknown_cost_witness :
    getLoopCostOf ⟨[], [], [(8, -1)]⟩ 8 = -1 ∧
    getLoopCostOf ⟨[], [], [(11, -1)]⟩ 11 = -1 ∧
    getLoopCostOf ⟨[], [], []⟩ 8 = -1 :=
  ⟨C7_unknown_cost.1 matmulSCEV 4 AccessOrder.ROWMAJOR ⟨[], [], []⟩ [rotatedLoop]
      ⟨[], [], [(8, -1)]⟩ rotatedLoop rfl (List.mem_singleton.mpr rfl) rfl,
   C7_unknown_cost.2.1 matmulSCEV 4 AccessOrder.ROWMAJOR ⟨[], [], []⟩ [twoBlockLoop]
      ⟨[], [], [(11, -1)]⟩ twoBlockLoop twoBlockLoop rfl (List.mem_singleton.mpr rfl) rfl rfl,
   C7_unknown_cost.2.2 matmulSCEV [rotatedLoop] ⟨[], [], []⟩ 8 rfl
      (by intro LN hLN ; cases hLN)⟩

/-- C8: a loop of a processed nest with no canonical induction variable
keeps the unknown cost -1, while every loop of the same nest that has one
receives the computed cost (the nest-cost formula over the final
trip-count and reference-group vectors). -/
theorem C8_missing_iv (S : SCEVModel ValT) (ls : Nat) (ord : AccessOrder) (st : LCState)
    (LN : List Loop) (st2 : LCState) (L : Loop)
    (hnd : (LN.map Loop.lid).Nodup)
    (hcalc : calculateLoopCosts S ls ord st LN = some st2) (hmem : L ∈ LN) :
    (L.canonicalIV = none → getLoopCostOf st2 L.lid = -1) ∧
    (∀ (p : Nat) (inner : Loop) (bb : BasicBlock),
        L.canonicalIV = some p → LN.getLast? = some inner →
        IsPerfectNest LN = true → getInnerSingleBB inner = some bb →
        lookupCost st2.LoopCosts L.lid =
          some (nestLoopCost ord ls st2.LoopTripCounts st2.ReferenceGroups L.lid p)) := by
  constructor
  · intro hiv
    obtain ⟨inner, hl⟩ := calc_some_getLast S ls ord st LN st2 hcalc
    cases hperf : IsPerfectNest LN with
    | false =>
      rw [calc_eq_of_imperfect S ls ord st LN inner hl hperf] at hcalc
      obtain rfl := Option.some.inj hcalc
      show (lookupCost (initCosts st.LoopCosts LN) L.lid).getD (-1) = -1
      rw [initCosts_lookup_mem LN st.LoopCosts L.lid (List.mem_map_of_mem Loop.lid hmem)]
      rfl
    | true =>
      cases hbb : getInnerSingleBB inner with
      | none =>
        rw [calc_eq_of_nobb S ls ord st LN inner hl hbb] at hcalc
        obtain rfl := Option.some.inj hcalc
        show (lookupCost (initCosts st.LoopCosts LN) L.lid).getD (-1) = -1
        rw [initCosts_lookup_mem LN st.LoopCosts L.lid (List.mem_map_of_mem Loop.lid hmem)]
        rfl
      | some bb =>
        cases hg : CreateReferenceGroups S ls st.ReferenceGroups (bbGEPs bb) with
        | none => simp [calculateLoopCosts, hl, hperf, hbb, hg] at hcalc
        | some groups =>
          cases htc : setTripCounts st.LoopTripCounts LN with
          | none => simp [calculateLoopCosts, hl, hperf, hbb, hg, htc] at hcalc
          | some tcs =>
            rw [calc_eq_of_full S ls ord st LN inner bb groups tcs hl hperf hbb hg htc]
              at hcalc
            obtain rfl := Option.some.inj hcalc
            show (lookupCost (costLoop ord ls tcs groups LN
              (initCosts st.LoopCosts LN)) L.lid).getD (-1) = -1
            rw [costLoop_lookup_skip ord ls tcs groups LN _ L hnd hmem hiv,
              initCosts_lookup_mem LN st.LoopCosts L.lid (List.mem_map_of_mem Loop.lid hmem)]
            rfl
  · intro p inner bb hiv hl hperf hbb
    cases hg : CreateReferenceGroups S ls st.ReferenceGroups (bbGEPs bb) with
    | none => simp [calculateLoopCosts, hl, hperf, hbb, hg] at hcalc
    | some groups =>
      cases htc : setTripCounts st.LoopTripCounts LN with
      | none => simp [calculateLoopCosts, hl, hperf, hbb, hg, htc] at hcalc
      | some tcs =>
        rw [calc_eq_of_full S ls ord st LN inner bb groups tcs hl hperf hbb hg htc] at hcalc
        obtain rfl := Option.some.inj hcalc
        exact costLoop_lookup_compute ord ls tcs groups LN _ L p hnd hmem hiv

/-- C8 (witness): a single-loop nest without a canonical induction
variable keeps -1; an otherwise identical nest with one gets the computed
nest cost. -/
theorem C8_missing_iv_witness :
    getLoopCostOf ⟨[(12, 7)], [⟨[ValT.glob 13], ValT.phi 301⟩], [(12, -1)]⟩ 12 = -1 ∧
    lookupCost [(13, nestLoopCost AccessOrder.ROWMAJOR 4 [(13, 8)]
        [⟨[ValT.glob 14], ValT.phi 302⟩] 13 302)] 13 =
      some (nestLoopCost AccessOrder.ROWMAJOR 4 [(13, 8)]
        [⟨[ValT.glob 14], ValT.phi 302⟩] 13 302) :=
  ⟨(C8_missing_iv matmulSCEV 4 AccessOrder.ROWMAJOR ⟨[], [], []⟩ [noIVLoop]
      ⟨[(12, 7)], [⟨[ValT.glob 13], ValT.phi 301⟩], [(12, -1)]⟩ noIVLoop (by decide) rfl
      (List.mem_singleton.mpr rfl)).1 rfl,
   (C8_missing_iv matmulSCEV 4 AccessOrder.ROWMAJOR ⟨[], [], []⟩ [withIVLoop]
      ⟨[(13, 8)], [⟨[ValT.glob 14], ValT.phi 302⟩],
       [(13, nestLoopCost AccessOrder.ROWMAJOR 4 [(13, 8)]
          [⟨[ValT.glob 14], ValT.phi 302⟩] 13 302)]⟩ withIVLoop (by decide) rfl
      (List.mem_singleton.mpr rfl)).2 302 withIVLoop
      ⟨96, [Inst.gep [ValT.glob 14] (ValT.phi 302), Inst.br true]⟩ rfl rfl rfl rfl⟩

/-- C1: the member vectors LoopTripCounts and ReferenceGroups are never
cleared between nests, so a nest's costs depend on previously processed
nests: the second of two independent single-loop nests gets cost 60 when
processed after the first, but cost 5 when it is the only nest of the
run. -/
theorem C1_cross_nest_state_leak :
    costOfRun matmulSCEV [nest1Loop, nest2Loop] 2 = some 60 ∧
    costOfRun matmulSCEV [nest2Loop] 2 = some 5 ∧
    (60 : ℚ) ≠ 5 := by
  refine ⟨?_, ?_, by norm_num⟩
  · simp [costOfRun, runOnFunction, runNests, detectNests, PopulatePerfectLoopNestsUnder,
      populateList, prependToLastNest, calculateLoopCosts, nest1Loop, nest2Loop, gN1, gN2,
      IsPerfectNest, chainOK, IsRotatedLoop, hasSimpleHeaderLatch, BlocksPerfectlyNestedUnder,
      Loop.subloops, Loop.lid, Loop.header, Loop.latch, Loop.exiting, Loop.canonicalIV,
      Loop.tripCount, LoopList.length, firstSub, allBlocks, subBlocks, blockIds, loopContains,
      isEmptyBlock, terminatorOf, getInnerSingleBB, findSingleBB, bbGEPs,
      CreateReferenceGroups, scanGroups, matmulSCEV, numOps, setTripCounts,
      normalizeTripCounts, tcLoop, tcStep, nth, setNth, initCosts, costLoop, nestLoopCost,
      penaltiesPair, refPenalty, opsOf, nthD, ASTMatch, List.range', setCost, lookupCost,
      getLoopCostOf]
    norm_num
  · simp [costOfRun, runOnFunction, runNests, detectNests, PopulatePerfectLoopNestsUnder,
      populateList, prependToLastNest, calculateLoopCosts, nest2Loop, gN2,
      IsPerfectNest, chainOK, IsRotatedLoop, hasSimpleHeaderLatch, BlocksPerfectlyNestedUnder,
      Loop.subloops, Loop.lid, Loop.header, Loop.latch, Loop.exiting, Loop.canonicalIV,
      Loop.tripCount, LoopList.length, firstSub, allBlocks, subBlocks, blockIds, loopContains,
      isEmptyBlock, terminatorOf, getInnerSingleBB, findSingleBB, bbGEPs,
      CreateReferenceGroups, scanGroups, matmulSCEV, numOps, setTripCounts,
      normalizeTripCounts, tcLoop, tcStep, nth, setNth, initCosts, costLoop, nestLoopCost,
      penaltiesPair, refPenalty, opsOf, nthD, ASTMatch, List.range', setCost, lookupCost,
      getLoopCostOf]
    norm_num

/-- C6 (counterexample): in the matmul scenario the innermost loop's cost
(about 1.5637e11) is NOT the highest: the outermost loop's cost (about
2.5018e11) exceeds it. -/
theorem C6_innermost_not_highest :
    costOfRun matmulSCEV [loopCond] 3 = some (625475115009 / 4) ∧
    costOfRun matmulSCEV [loopCond] 1 = some 250175040003 ∧
    (625475115009 / 4 : ℚ) < 250175040003 := by
  refine ⟨?_, ?_, by norm_num⟩
  · simp [costOfRun, runOnFunction, runNests, detectNests, PopulatePerfectLoopNestsUnder,
      populateList, prependToLastNest, calculateLoopCosts, loopCond, loopCond1, loopCond4,
      IsPerfectNest, chainOK, IsRotatedLoop, hasSimpleHeaderLatch, BlocksPerfectlyNestedUnder,
      Loop.subloops, Loop.lid, Loop.header, Loop.latch, Loop.exiting, Loop.canonicalIV,
      Loop.tripCount, LoopList.length, firstSub, allBlocks, subBlocks, blockIds, loopContains,
      isEmptyBlock, terminatorOf, getInnerSingleBB, findSingleBB, bbGEPs, bbBody6, gepC, gepA,
      gepB, CreateReferenceGroups, scanGroups, matmulSCEV, numOps, setTripCounts,
      normalizeTripCounts, tcLoop, tcStep, nth, setNth, initCosts, costLoop, nestLoopCost,
      penaltiesPair, refPenalty, opsOf, nthD, ASTMatch, List.range', setCost, lookupCost,
      getLoopCostOf]
    norm_num
  · simp [costOfRun, runOnFunction, runNests, detectNests, PopulatePerfectLoopNestsUnder,
      populateList, prependToLastNest, calculateLoopCosts, loopCond, loopCond1, loopCond4,
      IsPerfectNest, chainOK, IsRotatedLoop, hasSimpleHeaderLatch, BlocksPerfectlyNestedUnder,
      Loop.subloops, Loop.lid, Loop.header, Loop.latch, Loop.exiting, Loop.canonicalIV,
      Loop.tripCount, LoopList.length, firstSub, allBlocks, subBlocks, blockIds, loopContains,
      isEmptyBlock, terminatorOf, getInnerSingleBB, findSingleBB, bbGEPs, bbBody6, gepC, gepA,
      gepB, CreateReferenceGroups, scanGroups, matmulSCEV, numOps, setTripCounts,
      normalizeTripCounts, tcLoop, tcStep, nth, setNth, initCosts, costLoop, nestLoopCost,
      penaltiesPair, refPenalty, opsOf, nthD, ASTMatch, List.range', setCost, lookupCost,
      getLoopCostOf]
    norm_num

/-- C6 (amended): in the matmul scenario all three trip counts resolve to
5001 and the costs are exactly 156368778752.25 (innermost), 62562517501.5
(middle) and 250175040003 (outermost), within the claimed approximate
magnitudes; the ordering is outermost highest, innermost second, middle
lowest. -/
theorem C6_matmul_scenario :
    (runOnFunction matmulSCEV [loopCond]).map LCState.LoopTripCounts =
      some [(1, 5001), (2, 5001), (3, 5001)] ∧
    costOfRun matmulSCEV [loopCond] 3 = some (625475115009 / 4) ∧
    costOfRun matmulSCEV [loopCond] 2 = some (125125035003 / 2) ∧
    costOfRun matmulSCEV [loopCond] 1 = some 250175040003 ∧
    ((156360000000 : ℚ) < 625475115009 / 4 ∧ (625475115009 / 4 : ℚ) < 156370000000) ∧
    ((62562000000 : ℚ) < 125125035003 / 2 ∧ (125125035003 / 2 : ℚ) < 62563000000) ∧
    ((250170000000 : ℚ) < 250175040003 ∧ (250175040003 : ℚ) < 250180000000) ∧
    (125125035003 / 2 : ℚ) < 625475115009 / 4 ∧
    (625475115009 / 4 : ℚ) < 250175040003 := by
  refine ⟨rfl, ?_, ?_, ?_, by norm_num, by norm_num, by norm_num, by norm_num, by norm_num⟩
  · simp [costOfRun, runOnFunction, runNests, detectNests, PopulatePerfectLoopNestsUnder,
      populateList, prependToLastNest, calculateLoopCosts, loopCond, loopCond1, loopCond4,
      IsPerfectNest, chainOK, IsRotatedLoop, hasSimpleHeaderLatch, BlocksPerfectlyNestedUnder,
      Loop.subloops, Loop.lid, Loop.header, Loop.latch, Loop.exiting, Loop.canonicalIV,
      Loop.tripCount, LoopList.length, firstSub, allBlocks, subBlocks, blockIds, loopContains,
      isEmptyBlock, terminatorOf, getInnerSingleBB, findSingleBB, bbGEPs, bbBody6, gepC, gepA,
      gepB, CreateReferenceGroups, scanGroups, matmulSCEV, numOps, setTripCounts,
      normalizeTripCounts, tcLoop, tcStep, nth, setNth, initCosts, costLoop, nestLoopCost,
      penaltiesPair, refPenalty, opsOf, nthD, ASTMatch, List.range', setCost, lookupCost,
      getLoopCostOf]
    norm_num
  · simp [costOfRun, runOnFunction, runNests, detectNests, PopulatePerfectLoopNestsUnder,
      populateList, prependToLastNest, calculateLoopCosts, loopCond, loopCond1, loopCond4,
      IsPerfectNest, chainOK, IsRotatedLoop, hasSimpleHeaderLatch, BlocksPerfectlyNestedUnder,
      Loop.subloops, Loop.lid, Loop.header, Loop.latch, Loop.exiting, Loop.canonicalIV,
      Loop.tripCount, LoopList.length, firstSub, allBlocks, subBlocks, blockIds, loopContains,
      isEmptyBlock, terminatorOf, getInnerSingleBB, findSingleBB, bbGEPs, bbBody6, gepC, gepA,
      gepB, CreateReferenceGroups, scanGroups, matmulSCEV, numOps, setTripCounts,
      normalizeTripCounts, tcLoop, tcStep, nth, setNth, initCosts, costLoop, nestLoopCost,
      penaltiesPair, refPenalty, opsOf, nthD, ASTMatch, List.range', setCost, lookupCost,
      getLoopCostOf]
    norm_num
  · simp [costOfRun, runOnFunction, runNests, detectNests, PopulatePerfectLoopNestsUnder,
      populateList, prependToLastNest, calculateLoopCosts, loopCond, loopCond1, loopCond4,
      IsPerfectNest, chainOK, IsRotatedLoop, hasSimpleHeaderLatch, BlocksPerfectlyNestedUnder,
      Loop.subloops, Loop.lid, Loop.header, Loop.latch, Loop.exiting, Loop.canonicalIV,
      Loop.tripCount, LoopList.length, firstSub, allBlocks, subBlocks, blockIds, loopContains,
      isEmptyBlock, terminatorOf, getInnerSingleBB, findSingleBB, bbGEPs, bbBody6, gepC, gepA,
      gepB, CreateReferenceGroups, scanGroups, matmulSCEV, numOps, setTripCounts,
      normalizeTripCounts, tcLoop, tcStep, nth, setNth, initCosts, costLoop, nestLoopCost,
      penaltiesPair, refPenalty, opsOf, nthD, ASTMatch, List.range', setCost, lookupCost,
      getLoopCostOf]
    norm_num

end LoopCostModel
